import Mathlib

/-!
# Verification of the goal-dependency scheduler interface of `src/libstore/build/goal.hh`

This file gives a shallow embedding of the `Goal` data model declared in
`src/libstore/build/goal.hh` and of the scheduler operations (`amDone`,
`addWaitee`, `waiteeDone`, `timedOut`, `getBuildResult`) whose contracts the
header documents.  The repository slice contains only the header: member
initializers, the constructor body, and the default `handleChildOutput` /
`handleEOF` / `cleanup` bodies are taken directly from the header; the bodies
of `amDone`, `addWaitee`, `waiteeDone`, `getBuildResult` and the `timedOut`
contract live in a source file not present in the slice, so those operations
are modelled from the specification's description of them (each such
definition says so in its doc comment).

Goals are identified by natural numbers; the global scheduler state is a map
from goal identifiers to per-goal states.  Sets of goals (`waitees`,
`waiters`) are modelled as duplicate-free lists of identifiers.
-/

namespace NixGoal

/-- Identifier of a goal (stands for the `GoalPtr` identity of a goal object). -/
abbrev GoalId := Nat

/-- Error message payload (stands for `nix::Error`). -/
abbrev Error := String

/-- `Goal::ExitCode` from `goal.hh` line 39:
`typedef enum {ecBusy, ecSuccess, ecFailed, ecNoSubstituters, ecIncompleteClosure} ExitCode;`. -/
inductive ExitCode
  | ecBusy
  | ecSuccess
  | ecFailed
  | ecNoSubstituters
  | ecIncompleteClosure
deriving DecidableEq, Repr

/-- A derived-path request (stands for `nix::DerivedPath`): either a plain
store path (`DerivedPath::Opaque`), or a derivation together with a selection
of output names (`DerivedPath::Built`). -/
inductive DerivedPath
  | opaquePath (path : String)
  | built (drvPath : String) (outputs : List String)
deriving DecidableEq, Repr

/-- Modelled from the spec: the full outcome record of a goal — "success/failure
detail, timing, output paths" — whose `builtOutputs` may carry entries for the
union of all requests sharing the goal (the concrete `BuildResult` type lives
in `build-result.hh`, outside the repository slice).  `builtOutputs` maps an
output name to its realisation information. -/
structure BuildResult where
  status : ExitCode := .ecBusy
  errorMsg : String := ""
  timesBuilt : Nat := 0
  startTime : Nat := 0
  stopTime : Nat := 0
  builtOutputs : List (String × String) := []
deriving DecidableEq, Repr

/-- Per-goal state: the data members of `struct Goal` (`goal.hh` lines 44-107),
with their in-class initializers.  `waitees` / `waiters` are the two sides of
the dependency relation (lines 49 and 55); the three failure counters are
lines 60, 66, 72; `exitCode = ecBusy` is line 82; `buildResult` line 88; `ex`
line 107; `name` line 77.  Two extra fields are history/resource bookkeeping
needed to state the spec's trace properties: `everWaitees` records every
waitee ever registered through `addWaitee` (a ghost variable, not a C++
member), and `childProcs` stands for the external child processes the goal
owns and must kill on timeout. -/
structure GoalState where
  exitCode : ExitCode := .ecBusy
  waitees : List GoalId := []
  waiters : List GoalId := []
  nrFailed : Nat := 0
  nrNoSubstituters : Nat := 0
  nrIncompleteClosure : Nat := 0
  name : String := ""
  ex : Option Error := none
  buildResult : BuildResult := {}
  everWaitees : List GoalId := []
  childProcs : List Nat := []
deriving DecidableEq, Repr

/-- The global scheduler state: per-goal state for every goal identifier. -/
abbrev WState := GoalId → GoalState

/-- Pointwise update of one goal's state. -/
def upd (s : WState) (g : GoalId) (f : GoalState → GoalState) : WState :=
  fun i => if i = g then f (s i) else s i

/-- The `Goal` constructor, `goal.hh` lines 109-111:
`Goal(Worker & worker, DerivedPath path) : worker(worker) { }` — the `path`
argument is discarded and every data member keeps its in-class initializer
(default-constructed `waitees`, `waiters`, `name`, `buildResult`, `ex`;
`nrFailed = nrNoSubstituters = nrIncompleteClosure = 0`; `exitCode = ecBusy`).
The `worker` backlink is a reference to the scheduler, not per-goal data, so
it is not part of `GoalState`. -/
def mkGoal (_path : DerivedPath) : GoalState := {}

/-- The initial scheduler state: every goal slot holds a freshly constructed
goal state. -/
def initState : WState := fun _ => {}

/-- Sum of the three failure counters of a goal. -/
def sumCounters (gs : GoalState) : Nat :=
  gs.nrFailed + gs.nrNoSubstituters + gs.nrIncompleteClosure

/-- A goal is runnable when it is Busy and has no pending waitees (spec §4.3:
"Runnable set: goals with `exitCode == Busy` and empty `waitees`"). -/
def runnable (gs : GoalState) : Prop :=
  gs.exitCode = .ecBusy ∧ gs.waitees = []

instance (gs : GoalState) : Decidable (runnable gs) := by
  unfold runnable; infer_instance

/-- Modelled from the spec: the counter update inside the default
`waiteeDone` (whose body is in `goal.cc`, outside the slice) — "if
`result != Success`, increment the matching failure counter (`nrFailed`,
`nrNoSubstituters`, or `nrIncompleteClosure`)". -/
def bumpFailureCounter (gs : GoalState) (result : ExitCode) : GoalState :=
  match result with
  | .ecFailed => { gs with nrFailed := gs.nrFailed + 1 }
  | .ecNoSubstituters => { gs with nrNoSubstituters := gs.nrNoSubstituters + 1 }
  | .ecIncompleteClosure => { gs with nrIncompleteClosure := gs.nrIncompleteClosure + 1 }
  | _ => gs

/-- Modelled from the spec: the default `Goal::waiteeDone(waitee, result)`
(declared `goal.hh` line 122, body in `goal.cc`, outside the slice) — "remove
`goal` from `waitees`; if `result != Success`, increment the matching failure
counter".  This is the state transform applied to the notified waiter. -/
def waiteeDoneF (gs : GoalState) (waitee : GoalId) (result : ExitCode) : GoalState :=
  bumpFailureCounter { gs with waitees := gs.waitees.filter (· != waitee) } result

/-- Apply `waiteeDoneF · g result` to every goal in `ws` (the notification
loop of `amDone` over the `waiters` set). -/
def notifyAll (s : WState) (ws : List GoalId) (g : GoalId) (result : ExitCode) : WState :=
  ws.foldl (fun acc w => upd acc w (fun gs => waiteeDoneF gs g result)) s

/-- First stage of `amDone`: set `exitCode` to the result and store the error
if one is present. -/
def amDoneSet (s : WState) (g : GoalId) (result : ExitCode) (err : Option Error) : WState :=
  upd s g (fun gs =>
    { gs with
      exitCode := result
      ex := match err with | some e => some e | none => gs.ex })

/-- Modelled from the spec: `Goal::amDone(result, ex)` (declared `goal.hh`
line 150, body in `goal.cc`, outside the slice) — "Sets `exitCode`, stores
`error` if present, then notifies every member of `waiters` via their
`waiteeDone`, then clears `waiters`". -/
def amDoneF (s : WState) (g : GoalId) (result : ExitCode) (err : Option Error) : WState :=
  upd
    (notifyAll (amDoneSet s g result err) ((amDoneSet s g result err g).waiters) g result)
    g (fun gs => { gs with waiters := [] })

/-- The contract precondition of `amDone`: the goal is not yet terminal.
A call with this predicate false is the spec's "detectable contract
violation". -/
def amDoneOk (s : WState) (g : GoalId) : Prop :=
  (s g).exitCode = .ecBusy

instance (s : WState) (g : GoalId) : Decidable (amDoneOk s g) := by
  unfold amDoneOk; infer_instance

/-- Modelled from the spec: `Goal::addWaitee(waitee)` (declared `goal.hh`
line 120, body in `goal.cc`, outside the slice) — "inserts `self` into
`goal.waiters` (weak) and `goal` into `self.waitees` (strong).  Fails
silently/no-ops if `goal` is already terminal-successful (no need to wait);
if `goal` is already terminal-failed, the dependent must still be notified
synchronously so its failure counters update even though no actual waiting
occurs."  The ghost field `everWaitees` records the registration whenever the
call is not the terminal-successful no-op. -/
def addWaiteeF (s : WState) (self g : GoalId) : WState :=
  match (s g).exitCode with
  | .ecSuccess => s
  | .ecBusy =>
      let s1 := upd s self (fun gs =>
        { gs with
          waitees := gs.waitees.insert g
          everWaitees := gs.everWaitees.insert g })
      upd s1 g (fun gs => { gs with waiters := gs.waiters.insert self })
  | r =>
      upd s self (fun gs =>
        waiteeDoneF { gs with everWaitees := gs.everWaitees.insert g } g r)

/-- Modelled from the spec: the `Goal::timedOut(ex)` contract (`goal.hh`
lines 141-146, pure virtual: "It should wake up its waiters, get rid of any
running child processes that are being monitored by the worker (important!)")
together with §7 "Timeout: surfaced as a Failed terminal state with a
timeout-specific error payload".  The goal kills its owned child processes
and completes with `ecFailed` carrying the timeout error. -/
def timedOutF (s : WState) (g : GoalId) (err : Error) : WState :=
  amDoneF (upd s g (fun gs => { gs with childProcs := [] })) g .ecFailed (some err)

/-- Which output names of a goal's internal build result are pertinent to a
given request: a `built` request selects exactly its requested output names;
a plain store-path request is about the path itself, so the whole record
pertains to it. -/
def pertinentOutput (req : DerivedPath) (outName : String) : Bool :=
  match req with
  | .opaquePath _ => true
  | .built _ outputs => outputs.contains outName

/-- Modelled from the spec: `Goal::getBuildResult(request)` (declared
`goal.hh` lines 92-102, body in `goal.cc`, outside the slice) — "Project a
`BuildResult` with just the information that pertains to the given request
... this 'safe accessor' ensures we don't [leak what the other requests are
for]".  The projection keeps the goal's own outcome fields and filters
`builtOutputs` down to the entries pertinent to `req`. -/
def getBuildResult (gs : GoalState) (req : DerivedPath) : BuildResult :=
  { gs.buildResult with
    builtOutputs := gs.buildResult.builtOutputs.filter (fun p => pertinentOutput req p.1) }

/-- Two internal build results agree on the part pertinent to a request:
same outcome fields and the same pertinent `builtOutputs` entries (they may
differ arbitrarily on entries other requests asked for). -/
def agreeOn (req : DerivedPath) (b1 b2 : BuildResult) : Prop :=
  b1.status = b2.status ∧ b1.errorMsg = b2.errorMsg ∧ b1.timesBuilt = b2.timesBuilt ∧
  b1.startTime = b2.startTime ∧ b1.stopTime = b2.stopTime ∧
  b1.builtOutputs.filter (fun p => pertinentOutput req p.1) =
    b2.builtOutputs.filter (fun p => pertinentOutput req p.1)

instance (req : DerivedPath) (b1 b2 : BuildResult) : Decidable (agreeOn req b1 b2) := by
  unfold agreeOn; infer_instance

/-- Outcome of one of the process-output callbacks: either the default body
ran (which calls `abort()`), or an override handled the data. -/
inductive HandlerOutcome
  | abortCalled
  | handled
deriving DecidableEq, Repr

/-- The default `Goal::handleChildOutput(fd, data)` body, `goal.hh` lines
124-127: `{ abort(); }` — it aborts for every file descriptor and every
payload. -/
def handleChildOutput (_fd : Int) (_data : String) : HandlerOutcome :=
  .abortCalled

/-- The default `Goal::handleEOF(fd)` body, `goal.hh` lines 129-132:
`{ abort(); }` — it aborts for every file descriptor. -/
def handleEOF (_fd : Int) : HandlerOutcome :=
  .abortCalled

/-- The scheduler-visible mutations of goal state, with the contract
preconditions the spec imposes on each (spec §5: the `waiters`/`waitees`
sets are mutated "only ever through the `addWaitee`/`amDone`/`waiteeDone`
contract").  `addWaitee` and the buildResult/child updates happen inside the
calling goal's `work()`, whose precondition is that the goal is Busy;
`amDone` may not be called on an already-terminal goal; `addWaitee` is called
at most once per distinct waitee (spec: `waiteeDone` fires "exactly once per
distinct waitee"). -/
inductive Step : WState → WState → Prop
  | addWaitee (s : WState) (self g : GoalId) :
      self ≠ g →
      (s self).exitCode = .ecBusy →
      g ∉ (s self).everWaitees →
      Step s (addWaiteeF s self g)
  | amDone (s : WState) (g : GoalId) (result : ExitCode) (err : Option Error) :
      (s g).exitCode = .ecBusy →
      result ≠ .ecBusy →
      Step s (amDoneF s g result err)
  | setBuildResult (s : WState) (g : GoalId) (br : BuildResult) :
      (s g).exitCode = .ecBusy →
      Step s (upd s g (fun gs => { gs with buildResult := br }))
  | registerChild (s : WState) (g : GoalId) (pid : Nat) :
      (s g).exitCode = .ecBusy →
      Step s (upd s g (fun gs => { gs with childProcs := gs.childProcs.insert pid }))
  | timedOut (s : WState) (g : GoalId) (err : Error) :
      (s g).exitCode = .ecBusy →
      Step s (timedOutF s g err)

/-- States reachable from the initial scheduler state by contract-respecting
operations. -/
inductive Reach : WState → Prop
  | init : Reach initState
  | step {s s' : WState} : Reach s → Step s s' → Reach s'

/-! ## Basic lemmas about state updates -/

theorem upd_self (s : WState) (g : GoalId) (f : GoalState → GoalState) :
    upd s g f g = f (s g) := by
  simp [upd]

theorem upd_ne (s : WState) (g : GoalId) (f : GoalState → GoalState) {x : GoalId}
    (h : x ≠ g) : upd s g f x = s x := by
  simp [upd, h]

theorem bump_exitCode (gs : GoalState) (r : ExitCode) :
    (bumpFailureCounter gs r).exitCode = gs.exitCode := by
  cases r <;> rfl

theorem bump_waitees (gs : GoalState) (r : ExitCode) :
    (bumpFailureCounter gs r).waitees = gs.waitees := by
  cases r <;> rfl

theorem bump_waiters (gs : GoalState) (r : ExitCode) :
    (bumpFailureCounter gs r).waiters = gs.waiters := by
  cases r <;> rfl

theorem bump_ex (gs : GoalState) (r : ExitCode) :
    (bumpFailureCounter gs r).ex = gs.ex := by
  cases r <;> rfl

theorem bump_buildResult (gs : GoalState) (r : ExitCode) :
    (bumpFailureCounter gs r).buildResult = gs.buildResult := by
  cases r <;> rfl

theorem bump_everWaitees (gs : GoalState) (r : ExitCode) :
    (bumpFailureCounter gs r).everWaitees = gs.everWaitees := by
  cases r <;> rfl

theorem bump_childProcs (gs : GoalState) (r : ExitCode) :
    (bumpFailureCounter gs r).childProcs = gs.childProcs := by
  cases r <;> rfl

theorem bump_nrFailed (gs : GoalState) (r : ExitCode) :
    (bumpFailureCounter gs r).nrFailed =
      gs.nrFailed + (if r = .ecFailed then 1 else 0) := by
  cases r <;> simp [bumpFailureCounter]

theorem bump_nrNoSubstituters (gs : GoalState) (r : ExitCode) :
    (bumpFailureCounter gs r).nrNoSubstituters =
      gs.nrNoSubstituters + (if r = .ecNoSubstituters then 1 else 0) := by
  cases r <;> simp [bumpFailureCounter]

theorem bump_nrIncompleteClosure (gs : GoalState) (r : ExitCode) :
    (bumpFailureCounter gs r).nrIncompleteClosure =
      gs.nrIncompleteClosure + (if r = .ecIncompleteClosure then 1 else 0) := by
  cases r <;> simp [bumpFailureCounter]

theorem sumCounters_bump_failure (gs : GoalState) (r : ExitCode)
    (h1 : r ≠ .ecBusy) (h2 : r ≠ .ecSuccess) :
    sumCounters (bumpFailureCounter gs r) = sumCounters gs + 1 := by
  cases r <;> simp_all [sumCounters, bumpFailureCounter] <;> omega

theorem sumCounters_bump_success (gs : GoalState) :
    sumCounters (bumpFailureCounter gs .ecSuccess) = sumCounters gs := rfl

theorem sumCounters_bump_le (gs : GoalState) (r : ExitCode) :
    sumCounters (bumpFailureCounter gs r) ≤ sumCounters gs + 1 := by
  cases r <;> simp [sumCounters, bumpFailureCounter] <;> omega

/-! ## Lemmas about `waiteeDoneF` -/

theorem waiteeDoneF_exitCode (gs : GoalState) (g : GoalId) (r : ExitCode) :
    (waiteeDoneF gs g r).exitCode = gs.exitCode := by
  simp [waiteeDoneF, bump_exitCode]

theorem waiteeDoneF_waiters (gs : GoalState) (g : GoalId) (r : ExitCode) :
    (waiteeDoneF gs g r).waiters = gs.waiters := by
  simp [waiteeDoneF, bump_waiters]

theorem waiteeDoneF_ex (gs : GoalState) (g : GoalId) (r : ExitCode) :
    (waiteeDoneF gs g r).ex = gs.ex := by
  simp [waiteeDoneF, bump_ex]

theorem waiteeDoneF_buildResult (gs : GoalState) (g : GoalId) (r : ExitCode) :
    (waiteeDoneF gs g r).buildResult = gs.buildResult := by
  simp [waiteeDoneF, bump_buildResult]

theorem waiteeDoneF_everWaitees (gs : GoalState) (g : GoalId) (r : ExitCode) :
    (waiteeDoneF gs g r).everWaitees = gs.everWaitees := by
  simp [waiteeDoneF, bump_everWaitees]

theorem waiteeDoneF_childProcs (gs : GoalState) (g : GoalId) (r : ExitCode) :
    (waiteeDoneF gs g r).childProcs = gs.childProcs := by
  simp [waiteeDoneF, bump_childProcs]

theorem waiteeDoneF_waitees (gs : GoalState) (g : GoalId) (r : ExitCode) :
    (waiteeDoneF gs g r).waitees = gs.waitees.filter (· != g) := by
  simp [waiteeDoneF, bump_waitees]

theorem mem_waiteeDoneF_waitees {gs : GoalState} {g x : GoalId} {r : ExitCode} :
    x ∈ (waiteeDoneF gs g r).waitees ↔ x ∈ gs.waitees ∧ x ≠ g := by
  simp [waiteeDoneF_waitees, List.mem_filter]

/-! ## Lemmas about `notifyAll` -/

theorem notifyAll_nil (s : WState) (g : GoalId) (r : ExitCode) :
    notifyAll s [] g r = s := rfl

theorem notifyAll_cons (s : WState) (a : GoalId) (tl : List GoalId) (g : GoalId)
    (r : ExitCode) :
    notifyAll s (a :: tl) g r =
      notifyAll (upd s a (fun gs => waiteeDoneF gs g r)) tl g r := rfl

theorem notifyAll_not_mem {ws : List GoalId} {w : GoalId} (h : w ∉ ws) :
    ∀ (s : WState) (g : GoalId) (r : ExitCode), notifyAll s ws g r w = s w := by
  induction ws with
  | nil => intro s g r; rfl
  | cons a tl ih =>
      intro s g r
      rw [notifyAll_cons]
      have hne : w ≠ a := fun hh => h (hh ▸ List.mem_cons_self a tl)
      have htl : w ∉ tl := fun hh => h (List.mem_cons_of_mem a hh)
      rw [ih htl, upd_ne _ _ _ hne]

theorem notifyAll_preserve {β : Type} (F : GoalState → β)
    (hF : ∀ gs x r, F (waiteeDoneF gs x r) = F gs) (ws : List GoalId) :
    ∀ (s : WState) (g : GoalId) (r : ExitCode) (w : GoalId),
      F (notifyAll s ws g r w) = F (s w) := by
  induction ws with
  | nil => intro s g r w; rfl
  | cons a tl ih =>
      intro s g r w
      rw [notifyAll_cons, ih]
      by_cases h : w = a
      · subst h; rw [upd_self]; exact hF _ _ _
      · rw [upd_ne _ _ _ h]

theorem notifyAll_exitCode (ws : List GoalId) (s : WState) (g : GoalId)
    (r : ExitCode) (w : GoalId) :
    (notifyAll s ws g r w).exitCode = (s w).exitCode :=
  notifyAll_preserve GoalState.exitCode waiteeDoneF_exitCode ws s g r w

theorem notifyAll_waiters (ws : List GoalId) (s : WState) (g : GoalId)
    (r : ExitCode) (w : GoalId) :
    (notifyAll s ws g r w).waiters = (s w).waiters :=
  notifyAll_preserve GoalState.waiters waiteeDoneF_waiters ws s g r w

theorem notifyAll_ex (ws : List GoalId) (s : WState) (g : GoalId)
    (r : ExitCode) (w : GoalId) :
    (notifyAll s ws g r w).ex = (s w).ex :=
  notifyAll_preserve GoalState.ex waiteeDoneF_ex ws s g r w

theorem notifyAll_buildResult (ws : List GoalId) (s : WState) (g : GoalId)
    (r : ExitCode) (w : GoalId) :
    (notifyAll s ws g r w).buildResult = (s w).buildResult :=
  notifyAll_preserve GoalState.buildResult waiteeDoneF_buildResult ws s g r w

theorem notifyAll_everWaitees (ws : List GoalId) (s : WState) (g : GoalId)
    (r : ExitCode) (w : GoalId) :
    (notifyAll s ws g r w).everWaitees = (s w).everWaitees :=
  notifyAll_preserve GoalState.everWaitees waiteeDoneF_everWaitees ws s g r w

theorem notifyAll_childProcs (ws : List GoalId) (s : WState) (g : GoalId)
    (r : ExitCode) (w : GoalId) :
    (notifyAll s ws g r w).childProcs = (s w).childProcs :=
  notifyAll_preserve GoalState.childProcs waiteeDoneF_childProcs ws s g r w

theorem notifyAll_waitees_subset (ws : List GoalId) :
    ∀ (s : WState) (g : GoalId) (r : ExitCode) (w x : GoalId),
      x ∈ (notifyAll s ws g r w).waitees → x ∈ (s w).waitees := by
  induction ws with
  | nil => intro s g r w x h; exact h
  | cons a tl ih =>
      intro s g r w x h
      rw [notifyAll_cons] at h
      have h2 := ih _ _ _ _ _ h
      by_cases hw : w = a
      · subst hw
        rw [upd_self] at h2
        exact (mem_waiteeDoneF_waitees.mp h2).1
      · rwa [upd_ne _ _ _ hw] at h2

theorem notifyAll_mem_eq {ws : List GoalId} (hnd : ws.Nodup) {w : GoalId}
    (hw : w ∈ ws) :
    ∀ (s : WState) (g : GoalId) (r : ExitCode),
      notifyAll s ws g r w = waiteeDoneF (s w) g r := by
  induction ws with
  | nil => cases hw
  | cons a tl ih =>
      intro s g r
      rw [notifyAll_cons]
      rcases List.mem_cons.mp hw with h | h
      · subst h
        have htl : w ∉ tl := (List.nodup_cons.mp hnd).1
        rw [notifyAll_not_mem htl, upd_self]
      · have hne : w ≠ a := by
          rintro rfl
          exact (List.nodup_cons.mp hnd).1 h
        rw [ih (List.nodup_cons.mp hnd).2 h, upd_ne _ _ _ hne]

theorem notifyAll_not_mem_waitee (ws : List GoalId) :
    ∀ (s : WState) (g : GoalId) (r : ExitCode) (w : GoalId), w ∈ ws →
      g ∉ (notifyAll s ws g r w).waitees := by
  induction ws with
  | nil => intro s g r w h; cases h
  | cons a tl ih =>
      intro s g r w hw hmem
      rw [notifyAll_cons] at hmem
      by_cases htl : w ∈ tl
      · exact ih _ _ _ _ htl hmem
      · rcases List.mem_cons.mp hw with h | h
        · subst h
          have h2 := notifyAll_waitees_subset tl _ _ _ _ _ hmem
          rw [upd_self] at h2
          exact (mem_waiteeDoneF_waitees.mp h2).2 rfl
        · exact htl h


/-! ## Lemmas about `amDoneSet` and `amDoneF` -/

theorem amDoneSet_waiters (s : WState) (g : GoalId) (r : ExitCode) (e : Option Error)
    (x : GoalId) : (amDoneSet s g r e x).waiters = (s x).waiters := by
  by_cases h : x = g
  · subst h; simp [amDoneSet, upd_self]
  · simp [amDoneSet, upd_ne _ _ _ h]

theorem amDoneSet_waitees (s : WState) (g : GoalId) (r : ExitCode) (e : Option Error)
    (x : GoalId) : (amDoneSet s g r e x).waitees = (s x).waitees := by
  by_cases h : x = g
  · subst h; simp [amDoneSet, upd_self]
  · simp [amDoneSet, upd_ne _ _ _ h]

theorem amDoneSet_everWaitees (s : WState) (g : GoalId) (r : ExitCode) (e : Option Error)
    (x : GoalId) : (amDoneSet s g r e x).everWaitees = (s x).everWaitees := by
  by_cases h : x = g
  · subst h; simp [amDoneSet, upd_self]
  · simp [amDoneSet, upd_ne _ _ _ h]

theorem amDoneSet_buildResult (s : WState) (g : GoalId) (r : ExitCode) (e : Option Error)
    (x : GoalId) : (amDoneSet s g r e x).buildResult = (s x).buildResult := by
  by_cases h : x = g
  · subst h; simp [amDoneSet, upd_self]
  · simp [amDoneSet, upd_ne _ _ _ h]

theorem amDoneSet_childProcs (s : WState) (g : GoalId) (r : ExitCode) (e : Option Error)
    (x : GoalId) : (amDoneSet s g r e x).childProcs = (s x).childProcs := by
  by_cases h : x = g
  · subst h; simp [amDoneSet, upd_self]
  · simp [amDoneSet, upd_ne _ _ _ h]

theorem amDoneSet_sumCounters (s : WState) (g : GoalId) (r : ExitCode) (e : Option Error)
    (x : GoalId) : sumCounters (amDoneSet s g r e x) = sumCounters (s x) := by
  by_cases h : x = g
  · subst h; simp [amDoneSet, upd_self, sumCounters]
  · simp [amDoneSet, upd_ne _ _ _ h]

theorem amDoneSet_exitCode_self (s : WState) (g : GoalId) (r : ExitCode)
    (e : Option Error) : (amDoneSet s g r e g).exitCode = r := by
  simp [amDoneSet, upd_self]

theorem amDoneSet_exitCode_ne (s : WState) (g : GoalId) (r : ExitCode)
    (e : Option Error) {x : GoalId} (h : x ≠ g) :
    (amDoneSet s g r e x).exitCode = (s x).exitCode := by
  simp [amDoneSet, upd_ne _ _ _ h]

theorem amDoneSet_ex_ne (s : WState) (g : GoalId) (r : ExitCode)
    (e : Option Error) {x : GoalId} (h : x ≠ g) :
    (amDoneSet s g r e x).ex = (s x).ex := by
  simp [amDoneSet, upd_ne _ _ _ h]

theorem amDoneSet_ex_self_some (s : WState) (g : GoalId) (r : ExitCode) (e : Error) :
    (amDoneSet s g r (some e) g).ex = some e := by
  simp [amDoneSet, upd_self]

theorem amDoneSet_ex_self_none (s : WState) (g : GoalId) (r : ExitCode) :
    (amDoneSet s g r none g).ex = (s g).ex := by
  simp [amDoneSet, upd_self]

theorem amDoneF_eq (s : WState) (g : GoalId) (r : ExitCode) (e : Option Error) :
    amDoneF s g r e =
      upd (notifyAll (amDoneSet s g r e) ((s g).waiters) g r) g
        (fun gs => { gs with waiters := [] }) := by
  unfold amDoneF
  rw [amDoneSet_waiters]

theorem amDoneF_exitCode_self (s : WState) (g : GoalId) (r : ExitCode)
    (e : Option Error) : (amDoneF s g r e g).exitCode = r := by
  rw [amDoneF_eq, upd_self]
  show (notifyAll (amDoneSet s g r e) ((s g).waiters) g r g).exitCode = r
  rw [notifyAll_exitCode, amDoneSet_exitCode_self]

theorem amDoneF_exitCode_ne (s : WState) (g : GoalId) (r : ExitCode)
    (e : Option Error) {x : GoalId} (h : x ≠ g) :
    (amDoneF s g r e x).exitCode = (s x).exitCode := by
  rw [amDoneF_eq, upd_ne _ _ _ h, notifyAll_exitCode, amDoneSet_exitCode_ne _ _ _ _ h]

theorem amDoneF_waiters_self (s : WState) (g : GoalId) (r : ExitCode)
    (e : Option Error) : (amDoneF s g r e g).waiters = [] := by
  rw [amDoneF_eq, upd_self]

theorem amDoneF_waiters_ne (s : WState) (g : GoalId) (r : ExitCode)
    (e : Option Error) {x : GoalId} (h : x ≠ g) :
    (amDoneF s g r e x).waiters = (s x).waiters := by
  rw [amDoneF_eq, upd_ne _ _ _ h, notifyAll_waiters, amDoneSet_waiters]

theorem amDoneF_ex_self_some (s : WState) (g : GoalId) (r : ExitCode) (e : Error) :
    (amDoneF s g r (some e) g).ex = some e := by
  rw [amDoneF_eq, upd_self]
  show (notifyAll (amDoneSet s g r (some e)) ((s g).waiters) g r g).ex = some e
  rw [notifyAll_ex, amDoneSet_ex_self_some]

theorem amDoneF_ex_self_none (s : WState) (g : GoalId) (r : ExitCode) :
    (amDoneF s g r none g).ex = (s g).ex := by
  rw [amDoneF_eq, upd_self]
  show (notifyAll (amDoneSet s g r none) ((s g).waiters) g r g).ex = (s g).ex
  rw [notifyAll_ex, amDoneSet_ex_self_none]

theorem amDoneF_buildResult (s : WState) (g : GoalId) (r : ExitCode)
    (e : Option Error) (x : GoalId) :
    (amDoneF s g r e x).buildResult = (s x).buildResult := by
  rw [amDoneF_eq]
  by_cases h : x = g
  · subst h
    rw [upd_self]
    show (notifyAll (amDoneSet s x r e) ((s x).waiters) x r x).buildResult = _
    rw [notifyAll_buildResult, amDoneSet_buildResult]
  · rw [upd_ne _ _ _ h, notifyAll_buildResult, amDoneSet_buildResult]

theorem amDoneF_everWaitees (s : WState) (g : GoalId) (r : ExitCode)
    (e : Option Error) (x : GoalId) :
    (amDoneF s g r e x).everWaitees = (s x).everWaitees := by
  rw [amDoneF_eq]
  by_cases h : x = g
  · subst h
    rw [upd_self]
    show (notifyAll (amDoneSet s x r e) ((s x).waiters) x r x).everWaitees = _
    rw [notifyAll_everWaitees, amDoneSet_everWaitees]
  · rw [upd_ne _ _ _ h, notifyAll_everWaitees, amDoneSet_everWaitees]

theorem amDoneF_childProcs (s : WState) (g : GoalId) (r : ExitCode)
    (e : Option Error) (x : GoalId) :
    (amDoneF s g r e x).childProcs = (s x).childProcs := by
  rw [amDoneF_eq]
  by_cases h : x = g
  · subst h
    rw [upd_self]
    show (notifyAll (amDoneSet s x r e) ((s x).waiters) x r x).childProcs = _
    rw [notifyAll_childProcs, amDoneSet_childProcs]
  · rw [upd_ne _ _ _ h, notifyAll_childProcs, amDoneSet_childProcs]

theorem amDoneF_waitees_subset (s : WState) (g : GoalId) (r : ExitCode)
    (e : Option Error) (w x : GoalId) :
    x ∈ (amDoneF s g r e w).waitees → x ∈ (s w).waitees := by
  intro hx
  rw [amDoneF_eq] at hx
  by_cases h : w = g
  · subst h
    rw [upd_self] at hx
    have h2 : x ∈ (notifyAll (amDoneSet s w r e) ((s w).waiters) w r w).waitees := hx
    have h3 := notifyAll_waitees_subset _ _ _ _ _ _ h2
    rwa [amDoneSet_waitees] at h3
  · rw [upd_ne _ _ _ h] at hx
    have h3 := notifyAll_waitees_subset _ _ _ _ _ _ hx
    rwa [amDoneSet_waitees] at h3

theorem amDoneF_waiter_eq (s : WState) (g : GoalId) (r : ExitCode) (e : Option Error)
    {w : GoalId} (hnd : (s g).waiters.Nodup) (hw : w ∈ (s g).waiters) (hne : w ≠ g) :
    amDoneF s g r e w = waiteeDoneF (s w) g r := by
  rw [amDoneF_eq, upd_ne _ _ _ hne, notifyAll_mem_eq hnd hw]
  have hx : amDoneSet s g r e w = s w := by
    unfold amDoneSet
    rw [upd_ne _ _ _ hne]
  rw [hx]

theorem amDoneF_not_waiter_waitees (s : WState) (g : GoalId) (r : ExitCode)
    (e : Option Error) {w : GoalId} (hw : w ∉ (s g).waiters) :
    (amDoneF s g r e w).waitees = (s w).waitees := by
  rw [amDoneF_eq]
  by_cases h : w = g
  · subst h
    rw [upd_self]
    show (notifyAll (amDoneSet s w r e) ((s w).waiters) w r w).waitees = _
    rw [notifyAll_not_mem hw, amDoneSet_waitees]
  · rw [upd_ne _ _ _ h, notifyAll_not_mem hw, amDoneSet_waitees]

theorem amDoneF_not_waiter_sumCounters (s : WState) (g : GoalId) (r : ExitCode)
    (e : Option Error) {w : GoalId} (hw : w ∉ (s g).waiters) :
    sumCounters (amDoneF s g r e w) = sumCounters (s w) := by
  rw [amDoneF_eq]
  by_cases h : w = g
  · subst h
    rw [upd_self]
    show sumCounters { notifyAll (amDoneSet s w r e) ((s w).waiters) w r w with
        waiters := [] } = _
    have h2 : sumCounters { notifyAll (amDoneSet s w r e) ((s w).waiters) w r w with
        waiters := [] } =
        sumCounters (notifyAll (amDoneSet s w r e) ((s w).waiters) w r w) := rfl
    rw [h2, notifyAll_not_mem hw, amDoneSet_sumCounters]
  · rw [upd_ne _ _ _ h, notifyAll_not_mem hw, amDoneSet_sumCounters]

/-! ## Case lemmas for `addWaiteeF` -/

theorem addWaiteeF_success {s : WState} {g : GoalId} (self : GoalId)
    (h : (s g).exitCode = .ecSuccess) : addWaiteeF s self g = s := by
  unfold addWaiteeF
  rw [h]

theorem addWaiteeF_busy {s : WState} {g : GoalId} (self : GoalId)
    (h : (s g).exitCode = .ecBusy) :
    addWaiteeF s self g =
      upd
        (upd s self (fun gs =>
          { gs with
            waitees := gs.waitees.insert g
            everWaitees := gs.everWaitees.insert g }))
        g (fun gs => { gs with waiters := gs.waiters.insert self }) := by
  unfold addWaiteeF
  rw [h]

theorem addWaiteeF_failed {s : WState} {g : GoalId} (self : GoalId) {r : ExitCode}
    (h : (s g).exitCode = r) (h1 : r ≠ .ecBusy) (h2 : r ≠ .ecSuccess) :
    addWaiteeF s self g =
      upd s self (fun gs =>
        waiteeDoneF { gs with everWaitees := gs.everWaitees.insert g } g r) := by
  unfold addWaiteeF
  rw [h]
  cases r
  · exact absurd rfl h1
  · exact absurd rfl h2
  · rfl
  · rfl
  · rfl

/-! ## The inductive invariant of reachable scheduler states -/

/-- The invariant maintained by every contract-respecting operation: the
waiter/waitee relation is symmetric in both directions, a terminal goal has no
waiters left, no goal waits on itself, `waiters` and the ghost registration
history are duplicate-free, the current waitees are among the registered ones,
and the failure counters plus the still-pending waitees never exceed the
registered waitees. -/
structure Inv (s : WState) : Prop where
  sym : ∀ a b, a ∈ (s b).waitees → b ∈ (s a).waiters
  symRev : ∀ a b, b ∈ (s a).waiters → a ∈ (s b).waitees
  termClean : ∀ x, (s x).exitCode ≠ .ecBusy → (s x).waiters = []
  noSelfWaiters : ∀ x, x ∉ (s x).waiters
  waitersNodup : ∀ x, (s x).waiters.Nodup
  subEver : ∀ x, (s x).waitees ⊆ (s x).everWaitees
  everNodup : ∀ x, (s x).everWaitees.Nodup
  cnt : ∀ x, sumCounters (s x) + (s x).waitees.length ≤ (s x).everWaitees.length

theorem inv_init : Inv initState := by
  constructor <;> intro x <;> simp [initState, sumCounters]

/-- Transfer of the invariant along a state that agrees on all
invariant-relevant fields. -/
theorem inv_congr {s s' : WState} (h : Inv s)
    (heq : ∀ x, (s' x).exitCode = (s x).exitCode ∧ (s' x).waitees = (s x).waitees ∧
      (s' x).waiters = (s x).waiters ∧ (s' x).everWaitees = (s x).everWaitees ∧
      sumCounters (s' x) = sumCounters (s x)) : Inv s' := by
  constructor
  · intro a b hab
    rw [(heq b).2.1] at hab
    rw [(heq a).2.2.1]
    exact h.sym a b hab
  · intro a b hba
    rw [(heq a).2.2.1] at hba
    rw [(heq b).2.1]
    exact h.symRev a b hba
  · intro x hx
    rw [(heq x).1] at hx
    rw [(heq x).2.2.1]
    exact h.termClean x hx
  · intro x
    rw [(heq x).2.2.1]
    exact h.noSelfWaiters x
  · intro x
    rw [(heq x).2.2.1]
    exact h.waitersNodup x
  · intro x
    rw [(heq x).2.1, (heq x).2.2.2.1]
    exact h.subEver x
  · intro x
    rw [(heq x).2.2.2.1]
    exact h.everNodup x
  · intro x
    rw [(heq x).2.1, (heq x).2.2.2.1, (heq x).2.2.2.2]
    exact h.cnt x

/-- Invariant preservation for the Busy branch of `addWaitee`, phrased over a
pointwise description of the successor state. -/
theorem inv_addWaitee_busy_aux {s s' : WState} (h : Inv s) {self g : GoalId}
    (hne : self ≠ g) (hever : g ∉ (s self).everWaitees)
    (hbg : (s g).exitCode = .ecBusy)
    (hgEq : s' g = { s g with waiters := (s g).waiters.insert self })
    (hselfEq : s' self = { s self with
      waitees := (s self).waitees.insert g
      everWaitees := (s self).everWaitees.insert g })
    (hother : ∀ x, x ≠ g → x ≠ self → s' x = s x) :
    Inv s' := by
  have hexit : ∀ x, (s' x).exitCode = (s x).exitCode := by
    intro x
    by_cases h1 : x = self
    · rw [h1, hselfEq]
    · by_cases h2 : x = g
      · rw [h2, hgEq]
      · rw [hother x h2 h1]
  have hsum : ∀ x, sumCounters (s' x) = sumCounters (s x) := by
    intro x
    by_cases h1 : x = self
    · rw [h1, hselfEq]; rfl
    · by_cases h2 : x = g
      · rw [h2, hgEq]; rfl
      · rw [hother x h2 h1]
  have hwaitersChar : ∀ x, x ≠ g → (s' x).waiters = (s x).waiters := by
    intro x hx
    by_cases h1 : x = self
    · rw [h1, hselfEq]
    · rw [hother x hx h1]
  have hwaiteesChar : ∀ x, x ≠ self → (s' x).waitees = (s x).waitees := by
    intro x hx
    by_cases h1 : x = g
    · rw [h1, hgEq]
    · rw [hother x h1 hx]
  have heverChar : ∀ x, x ≠ self → (s' x).everWaitees = (s x).everWaitees := by
    intro x hx
    by_cases h1 : x = g
    · rw [h1, hgEq]
    · rw [hother x h1 hx]
  have hgW : (s' g).waiters = (s g).waiters.insert self := by rw [hgEq]
  have hselfW : (s' self).waitees = (s self).waitees.insert g := by rw [hselfEq]
  have hselfE : (s' self).everWaitees = (s self).everWaitees.insert g := by
    rw [hselfEq]
  have hwaitersMono : ∀ x, (s x).waiters ⊆ (s' x).waiters := by
    intro x y hy
    by_cases h2 : x = g
    · rw [h2, hgW]
      rw [h2] at hy
      exact List.mem_insert_iff.mpr (Or.inr hy)
    · rw [hwaitersChar x h2]; exact hy
  have hwaiteesMono : ∀ x, (s x).waitees ⊆ (s' x).waitees := by
    intro x y hy
    by_cases h1 : x = self
    · rw [h1, hselfW]
      rw [h1] at hy
      exact List.mem_insert_iff.mpr (Or.inr hy)
    · rw [hwaiteesChar x h1]; exact hy
  constructor
  · intro a b hab
    by_cases hbself : b = self
    · rw [hbself, hselfW] at hab
      rcases List.mem_insert_iff.mp hab with hag | ha
      · rw [hag, hbself, hgW]
        exact List.mem_insert_iff.mpr (Or.inl rfl)
      · rw [hbself]
        exact hwaitersMono a (h.sym a self ha)
    · rw [hwaiteesChar b hbself] at hab
      exact hwaitersMono a (h.sym a b hab)
  · intro a b hba
    by_cases hag : a = g
    · rw [hag, hgW] at hba
      rcases List.mem_insert_iff.mp hba with hbself | hbw
      · rw [hag, hbself, hselfW]
        exact List.mem_insert_iff.mpr (Or.inl rfl)
      · rw [hag]
        exact hwaiteesMono b (h.symRev g b hbw)
    · rw [hwaitersChar a hag] at hba
      exact hwaiteesMono b (h.symRev a b hba)
  · intro x hx
    rw [hexit x] at hx
    by_cases hxg : x = g
    · rw [hxg] at hx
      exact absurd hbg hx
    · rw [hwaitersChar x hxg]
      exact h.termClean x hx
  · intro x
    by_cases hxg : x = g
    · rw [hxg, hgW]
      intro hmem
      rcases List.mem_insert_iff.mp hmem with h1 | h1
      · exact hne h1.symm
      · exact h.noSelfWaiters g h1
    · rw [hwaitersChar x hxg]
      exact h.noSelfWaiters x
  · intro x
    by_cases hxg : x = g
    · rw [hxg, hgW]
      exact (h.waitersNodup g).insert
    · rw [hwaitersChar x hxg]
      exact h.waitersNodup x
  · intro x
    by_cases hxself : x = self
    · rw [hxself, hselfW, hselfE]
      intro y hy
      rcases List.mem_insert_iff.mp hy with h1 | h1
      · exact List.mem_insert_iff.mpr (Or.inl h1)
      · exact List.mem_insert_iff.mpr (Or.inr (h.subEver self h1))
    · rw [hwaiteesChar x hxself, heverChar x hxself]
      exact h.subEver x
  · intro x
    by_cases hxself : x = self
    · rw [hxself, hselfE]
      exact (h.everNodup self).insert
    · rw [heverChar x hxself]
      exact h.everNodup x
  · intro x
    by_cases hxself : x = self
    · rw [hxself, hsum self, hselfW, hselfE]
      have hgnw : g ∉ (s self).waitees := fun hh => hever (h.subEver self hh)
      rw [List.length_insert_of_not_mem hgnw, List.length_insert_of_not_mem hever]
      have := h.cnt self
      omega
    · rw [hsum x, hwaiteesChar x hxself, heverChar x hxself]
      exact h.cnt x

/-- Invariant preservation for the terminal-failed branch of `addWaitee`,
phrased over a pointwise description of the successor state. -/
theorem inv_addWaitee_failed_aux {s s' : WState} (h : Inv s) {self g : GoalId}
    {r : ExitCode} (hne : self ≠ g) (hever : g ∉ (s self).everWaitees)
    (h1 : r ≠ .ecBusy) (h2 : r ≠ .ecSuccess)
    (hselfEq : s' self =
      waiteeDoneF { s self with everWaitees := (s self).everWaitees.insert g } g r)
    (hother : ∀ x, x ≠ self → s' x = s x) :
    Inv s' := by
  have hgnw : g ∉ (s self).waitees := fun hh => hever (h.subEver self hh)
  have hfilter : (s self).waitees.filter (· != g) = (s self).waitees := by
    apply List.filter_eq_self.mpr
    intro x hx
    simp only [bne_iff_ne, ne_eq, decide_eq_true_eq]
    rintro rfl
    exact hgnw hx
  have hselfWd : (s' self).waitees = (s self).waitees := by
    rw [hselfEq, waiteeDoneF_waitees]
    exact hfilter
  have hwaitees : ∀ x, (s' x).waitees = (s x).waitees := by
    intro x
    by_cases hx : x = self
    · rw [hx]; exact hselfWd
    · rw [hother x hx]
  have hwaiters : ∀ x, (s' x).waiters = (s x).waiters := by
    intro x
    by_cases hx : x = self
    · rw [hx, hselfEq, waiteeDoneF_waiters]
    · rw [hother x hx]
  have hexit : ∀ x, (s' x).exitCode = (s x).exitCode := by
    intro x
    by_cases hx : x = self
    · rw [hx, hselfEq, waiteeDoneF_exitCode]
    · rw [hother x hx]
  have hselfE : (s' self).everWaitees = (s self).everWaitees.insert g := by
    rw [hselfEq, waiteeDoneF_everWaitees]
  have heverChar : ∀ x, x ≠ self → (s' x).everWaitees = (s x).everWaitees := by
    intro x hx
    rw [hother x hx]
  have hselfSum : sumCounters (s' self) = sumCounters (s self) + 1 := by
    rw [hselfEq]
    unfold waiteeDoneF
    rw [sumCounters_bump_failure _ _ h1 h2]
    rfl
  constructor
  · intro a b hab
    rw [hwaitees b] at hab
    rw [hwaiters a]
    exact h.sym a b hab
  · intro a b hba
    rw [hwaiters a] at hba
    rw [hwaitees b]
    exact h.symRev a b hba
  · intro x hx
    rw [hexit x] at hx
    rw [hwaiters x]
    exact h.termClean x hx
  · intro x
    rw [hwaiters x]
    exact h.noSelfWaiters x
  · intro x
    rw [hwaiters x]
    exact h.waitersNodup x
  · intro x
    by_cases hx : x = self
    · rw [hx, hwaitees self, hselfE]
      intro y hy
      exact List.mem_insert_iff.mpr (Or.inr (h.subEver self hy))
    · rw [hwaitees x, heverChar x hx]
      exact h.subEver x
  · intro x
    by_cases hx : x = self
    · rw [hx, hselfE]
      exact (h.everNodup self).insert
    · rw [heverChar x hx]
      exact h.everNodup x
  · intro x
    by_cases hx : x = self
    · rw [hx, hselfSum, hwaitees self, hselfE, List.length_insert_of_not_mem hever]
      have := h.cnt self
      omega
    · have hxx : sumCounters (s' x) = sumCounters (s x) := by rw [hother x hx]
      rw [hxx, hwaitees x, heverChar x hx]
      exact h.cnt x

/-- Invariant preservation under a legal `amDone`. -/
theorem inv_amDone {s : WState} (h : Inv s) {g : GoalId} {r : ExitCode}
    {e : Option Error} (hbusy : (s g).exitCode = .ecBusy) (hr : r ≠ .ecBusy) :
    Inv (amDoneF s g r e) := by
  have hnd : (s g).waiters.Nodup := h.waitersNodup g
  have hgg : g ∉ (s g).waiters := h.noSelfWaiters g
  constructor
  · intro a b hab
    have hsub : a ∈ (s b).waitees := amDoneF_waitees_subset s g r e b a hab
    have hold : b ∈ (s a).waiters := h.sym a b hsub
    by_cases hag : a = g
    · rw [hag] at hab hold
      have hbg : b ≠ g := fun hh => hgg (hh ▸ hold)
      rw [amDoneF_waiter_eq s g r e hnd hold hbg] at hab
      exact ((mem_waiteeDoneF_waitees.mp hab).2 rfl).elim
    · rw [amDoneF_waiters_ne s g r e hag]
      exact hold
  · intro a b hba
    by_cases hag : a = g
    · rw [hag, amDoneF_waiters_self] at hba
      exact absurd hba (List.not_mem_nil b)
    · rw [amDoneF_waiters_ne s g r e hag] at hba
      have hold : a ∈ (s b).waitees := h.symRev a b hba
      by_cases hbw : b ∈ (s g).waiters
      · have hbg : b ≠ g := fun hh => hgg (hh ▸ hbw)
        rw [amDoneF_waiter_eq s g r e hnd hbw hbg]
        exact mem_waiteeDoneF_waitees.mpr ⟨hold, hag⟩
      · rw [amDoneF_not_waiter_waitees s g r e hbw]
        exact hold
  · intro x hx
    by_cases hxg : x = g
    · rw [hxg, amDoneF_waiters_self]
    · rw [amDoneF_waiters_ne s g r e hxg]
      rw [amDoneF_exitCode_ne s g r e hxg] at hx
      exact h.termClean x hx
  · intro x
    by_cases hxg : x = g
    · rw [hxg, amDoneF_waiters_self]
      exact List.not_mem_nil g
    · rw [amDoneF_waiters_ne s g r e hxg]
      exact h.noSelfWaiters x
  · intro x
    by_cases hxg : x = g
    · rw [hxg, amDoneF_waiters_self]
      exact List.nodup_nil
    · rw [amDoneF_waiters_ne s g r e hxg]
      exact h.waitersNodup x
  · intro x y hy
    have hsy : y ∈ (s x).waitees := amDoneF_waitees_subset s g r e x y hy
    rw [amDoneF_everWaitees]
    exact h.subEver x hsy
  · intro x
    rw [amDoneF_everWaitees]
    exact h.everNodup x
  · intro x
    rw [amDoneF_everWaitees]
    by_cases hxw : x ∈ (s g).waiters
    · have hxg : x ≠ g := fun hh => hgg (hh ▸ hxw)
      rw [amDoneF_waiter_eq s g r e hnd hxw hxg]
      have hgx : g ∈ (s x).waitees := h.symRev g x hxw
      have hlen : ((s x).waitees.filter (· != g)).length < (s x).waitees.length :=
        List.length_filter_lt_length_iff_exists.mpr ⟨g, hgx, by simp⟩
      have hsum : sumCounters (waiteeDoneF (s x) g r) ≤ sumCounters (s x) + 1 := by
        have hb := sumCounters_bump_le
          { s x with waitees := (s x).waitees.filter (· != g) } r
        have he : sumCounters { s x with waitees := (s x).waitees.filter (· != g) } =
            sumCounters (s x) := rfl
        unfold waiteeDoneF
        rw [he] at hb
        exact hb
      have hwd : (waiteeDoneF (s x) g r).waitees = (s x).waitees.filter (· != g) :=
        waiteeDoneF_waitees (s x) g r
      have hc := h.cnt x
      rw [hwd]
      omega
    · rw [amDoneF_not_waiter_waitees s g r e hxw,
        amDoneF_not_waiter_sumCounters s g r e hxw]
      exact h.cnt x

/-- Every contract-respecting operation preserves the invariant. -/
theorem inv_step {s s' : WState} (h : Inv s) (hs : Step s s') : Inv s' := by
  cases hs with
  | addWaitee self g hne hbusy hever =>
      cases hc : (s g).exitCode with
      | ecSuccess =>
          rw [addWaiteeF_success self hc]
          exact h
      | ecBusy =>
          rw [addWaiteeF_busy self hc]
          exact inv_addWaitee_busy_aux h hne hever hc
            (by rw [upd_self, upd_ne _ _ _ (Ne.symm hne)])
            (by rw [upd_ne _ _ _ hne, upd_self])
            (fun x h1 h2 => by rw [upd_ne _ _ _ h1, upd_ne _ _ _ h2])
      | ecFailed =>
          rw [addWaiteeF_failed self hc
            (show ExitCode.ecFailed ≠ ExitCode.ecBusy by decide)
            (show ExitCode.ecFailed ≠ ExitCode.ecSuccess by decide)]
          exact inv_addWaitee_failed_aux h hne hever
            (show ExitCode.ecFailed ≠ ExitCode.ecBusy by decide)
            (show ExitCode.ecFailed ≠ ExitCode.ecSuccess by decide)
            (by rw [upd_self])
            (fun x hx => by rw [upd_ne _ _ _ hx])
      | ecNoSubstituters =>
          rw [addWaiteeF_failed self hc
            (show ExitCode.ecNoSubstituters ≠ ExitCode.ecBusy by decide)
            (show ExitCode.ecNoSubstituters ≠ ExitCode.ecSuccess by decide)]
          exact inv_addWaitee_failed_aux h hne hever
            (show ExitCode.ecNoSubstituters ≠ ExitCode.ecBusy by decide)
            (show ExitCode.ecNoSubstituters ≠ ExitCode.ecSuccess by decide)
            (by rw [upd_self])
            (fun x hx => by rw [upd_ne _ _ _ hx])
      | ecIncompleteClosure =>
          rw [addWaiteeF_failed self hc
            (show ExitCode.ecIncompleteClosure ≠ ExitCode.ecBusy by decide)
            (show ExitCode.ecIncompleteClosure ≠ ExitCode.ecSuccess by decide)]
          exact inv_addWaitee_failed_aux h hne hever
            (show ExitCode.ecIncompleteClosure ≠ ExitCode.ecBusy by decide)
            (show ExitCode.ecIncompleteClosure ≠ ExitCode.ecSuccess by decide)
            (by rw [upd_self])
            (fun x hx => by rw [upd_ne _ _ _ hx])
  | amDone g result err hbusy hr =>
      exact inv_amDone h hbusy hr
  | setBuildResult g br hbusy =>
      apply inv_congr h
      intro x
      by_cases hx : x = g
      · rw [hx, upd_self]
        exact ⟨rfl, rfl, rfl, rfl, rfl⟩
      · rw [upd_ne _ _ _ hx]
        exact ⟨rfl, rfl, rfl, rfl, rfl⟩
  | registerChild g pid hbusy =>
      apply inv_congr h
      intro x
      by_cases hx : x = g
      · rw [hx, upd_self]
        exact ⟨rfl, rfl, rfl, rfl, rfl⟩
      · rw [upd_ne _ _ _ hx]
        exact ⟨rfl, rfl, rfl, rfl, rfl⟩
  | timedOut g err2 hbusy =>
      unfold timedOutF
      apply inv_amDone
      · apply inv_congr h
        intro x
        by_cases hx : x = g
        · rw [hx, upd_self]
          exact ⟨rfl, rfl, rfl, rfl, rfl⟩
        · rw [upd_ne _ _ _ hx]
          exact ⟨rfl, rfl, rfl, rfl, rfl⟩
      · rw [upd_self]
        exact hbusy
      · decide

/-- Every reachable scheduler state satisfies the invariant. -/
theorem inv_reach {s : WState} (h : Reach s) : Inv s := by
  induction h with
  | init => exact inv_init
  | step _ hs ih => exact inv_step ih hs

/-- A pointwise update with a field-preserving function preserves that field
everywhere. -/
theorem upd_preserve {β : Type} (F : GoalState → β) (s : WState) (y : GoalId)
    (f : GoalState → GoalState) (hf : ∀ gs, F (f gs) = F gs) (x : GoalId) :
    F (upd s y f x) = F (s x) := by
  by_cases h : x = y
  · rw [h, upd_self, hf]
  · rw [upd_ne _ _ _ h]

theorem addWaiteeF_exitCode (s : WState) (self g x : GoalId) :
    (addWaiteeF s self g x).exitCode = (s x).exitCode := by
  cases hc : (s g).exitCode with
  | ecSuccess => rw [addWaiteeF_success self hc]
  | ecBusy =>
      rw [addWaiteeF_busy self hc,
        upd_preserve GoalState.exitCode _ _ _ (fun gs => by rfl),
        upd_preserve GoalState.exitCode _ _ _ (fun gs => by rfl)]
  | ecFailed =>
      rw [addWaiteeF_failed self hc
          (show ExitCode.ecFailed ≠ ExitCode.ecBusy by decide)
          (show ExitCode.ecFailed ≠ ExitCode.ecSuccess by decide),
        upd_preserve GoalState.exitCode _ _ _
          (fun gs => by rw [waiteeDoneF_exitCode])]
  | ecNoSubstituters =>
      rw [addWaiteeF_failed self hc
          (show ExitCode.ecNoSubstituters ≠ ExitCode.ecBusy by decide)
          (show ExitCode.ecNoSubstituters ≠ ExitCode.ecSuccess by decide),
        upd_preserve GoalState.exitCode _ _ _
          (fun gs => by rw [waiteeDoneF_exitCode])]
  | ecIncompleteClosure =>
      rw [addWaiteeF_failed self hc
          (show ExitCode.ecIncompleteClosure ≠ ExitCode.ecBusy by decide)
          (show ExitCode.ecIncompleteClosure ≠ ExitCode.ecSuccess by decide),
        upd_preserve GoalState.exitCode _ _ _
          (fun gs => by rw [waiteeDoneF_exitCode])]

theorem addWaiteeF_buildResult (s : WState) (self g x : GoalId) :
    (addWaiteeF s self g x).buildResult = (s x).buildResult := by
  cases hc : (s g).exitCode with
  | ecSuccess => rw [addWaiteeF_success self hc]
  | ecBusy =>
      rw [addWaiteeF_busy self hc,
        upd_preserve GoalState.buildResult _ _ _ (fun gs => by rfl),
        upd_preserve GoalState.buildResult _ _ _ (fun gs => by rfl)]
  | ecFailed =>
      rw [addWaiteeF_failed self hc
          (show ExitCode.ecFailed ≠ ExitCode.ecBusy by decide)
          (show ExitCode.ecFailed ≠ ExitCode.ecSuccess by decide),
        upd_preserve GoalState.buildResult _ _ _
          (fun gs => by rw [waiteeDoneF_buildResult])]
  | ecNoSubstituters =>
      rw [addWaiteeF_failed self hc
          (show ExitCode.ecNoSubstituters ≠ ExitCode.ecBusy by decide)
          (show ExitCode.ecNoSubstituters ≠ ExitCode.ecSuccess by decide),
        upd_preserve GoalState.buildResult _ _ _
          (fun gs => by rw [waiteeDoneF_buildResult])]
  | ecIncompleteClosure =>
      rw [addWaiteeF_failed self hc
          (show ExitCode.ecIncompleteClosure ≠ ExitCode.ecBusy by decide)
          (show ExitCode.ecIncompleteClosure ≠ ExitCode.ecSuccess by decide),
        upd_preserve GoalState.buildResult _ _ _
          (fun gs => by rw [waiteeDoneF_buildResult])]

/-- In the busy and failed branches of `addWaitee`, the waitees of every goal
other than `self` are unchanged; in all branches the waitees of a goal other
than `self` are unchanged. -/
theorem addWaiteeF_waitees_other (s : WState) (self g x : GoalId) (hx : x ≠ self) :
    (addWaiteeF s self g x).waitees = (s x).waitees := by
  cases hc : (s g).exitCode with
  | ecSuccess => rw [addWaiteeF_success self hc]
  | ecBusy =>
      rw [addWaiteeF_busy self hc]
      by_cases h1 : x = g
      · rw [h1, upd_self]
        show (upd s self _ g).waitees = _
        rw [upd_ne _ _ _ (h1 ▸ hx)]
      · rw [upd_ne _ _ _ h1, upd_ne _ _ _ hx]
  | ecFailed =>
      rw [addWaiteeF_failed self hc
          (show ExitCode.ecFailed ≠ ExitCode.ecBusy by decide)
          (show ExitCode.ecFailed ≠ ExitCode.ecSuccess by decide),
        upd_ne _ _ _ hx]
  | ecNoSubstituters =>
      rw [addWaiteeF_failed self hc
          (show ExitCode.ecNoSubstituters ≠ ExitCode.ecBusy by decide)
          (show ExitCode.ecNoSubstituters ≠ ExitCode.ecSuccess by decide),
        upd_ne _ _ _ hx]
  | ecIncompleteClosure =>
      rw [addWaiteeF_failed self hc
          (show ExitCode.ecIncompleteClosure ≠ ExitCode.ecBusy by decide)
          (show ExitCode.ecIncompleteClosure ≠ ExitCode.ecSuccess by decide),
        upd_ne _ _ _ hx]

/-! ## Claim theorems -/

/-- C10: a newly constructed goal starts with `exitCode = ecBusy`, all three
failure counters zero, empty `waitees` and `waiters`, no stored error and an
empty name; and since the constructor discards its `DerivedPath` argument,
any two constructor arguments yield equal initial goal states. -/
theorem mkGoal_initial_state (p1 p2 : DerivedPath) :
    mkGoal p1 = mkGoal p2 ∧
    (mkGoal p1).exitCode = .ecBusy ∧
    (mkGoal p1).nrFailed = 0 ∧
    (mkGoal p1).nrNoSubstituters = 0 ∧
    (mkGoal p1).nrIncompleteClosure = 0 ∧
    (mkGoal p1).waitees = [] ∧
    (mkGoal p1).waiters = [] ∧
    (mkGoal p1).ex = none ∧
    (mkGoal p1).name = "" :=
  ⟨rfl, rfl, rfl, rfl, rfl, rfl, rfl, rfl, rfl⟩

/-- C9: the default `handleChildOutput` and `handleEOF` implementations signal
a programming error (`abort()`) unconditionally, for every file descriptor and
every data payload. -/
theorem default_handlers_abort (fd : Int) (data : String) :
    handleChildOutput fd data = .abortCalled ∧ handleEOF fd = .abortCalled :=
  ⟨rfl, rfl⟩

/-- C3: `getBuildResult` returns only the subset of the internal `buildResult`
pertinent to the request — every returned output entry is pertinent to the
request — and for any two internal results that agree on the part pertinent
to the caller's own request (but may differ arbitrarily on what other
requests asked for), the returned views are identical. -/
theorem getBuildResult_noninterference (gs1 gs2 : GoalState) (req : DerivedPath)
    (hagree : agreeOn req gs1.buildResult gs2.buildResult) :
    getBuildResult gs1 req = getBuildResult gs2 req ∧
    ∀ p ∈ (getBuildResult gs1 req).builtOutputs, pertinentOutput req p.1 = true := by
  obtain ⟨h1, h2, h3, h4, h5, h6⟩ := hagree
  constructor
  · have e1 : getBuildResult gs1 req =
        { status := gs1.buildResult.status
          errorMsg := gs1.buildResult.errorMsg
          timesBuilt := gs1.buildResult.timesBuilt
          startTime := gs1.buildResult.startTime
          stopTime := gs1.buildResult.stopTime
          builtOutputs :=
            gs1.buildResult.builtOutputs.filter (fun p => pertinentOutput req p.1) } :=
      rfl
    have e2 : getBuildResult gs2 req =
        { status := gs2.buildResult.status
          errorMsg := gs2.buildResult.errorMsg
          timesBuilt := gs2.buildResult.timesBuilt
          startTime := gs2.buildResult.startTime
          stopTime := gs2.buildResult.stopTime
          builtOutputs :=
            gs2.buildResult.builtOutputs.filter (fun p => pertinentOutput req p.1) } :=
      rfl
    rw [e1, e2, h1, h2, h3, h4, h5, h6]
  · intro p hp
    unfold getBuildResult at hp
    have hp2 : p ∈ gs1.buildResult.builtOutputs.filter
        (fun q => pertinentOutput req q.1) := hp
    exact (List.mem_filter.mp hp2).2

/-- Witness for C3: two internal results share the pertinent output `out` but
record different private outputs for other requests; the projected views for
the request `built "drv" [out]` coincide. -/
theorem getBuildResult_noninterference_witness :
    agreeOn (.built "drv" ["out"])
      { builtOutputs := [("out", "h1"), ("doc", "secretA")] }
      { builtOutputs := [("out", "h1"), ("lib", "secretB")] } ∧
    getBuildResult
        { buildResult := { builtOutputs := [("out", "h1"), ("doc", "secretA")] } }
        (.built "drv" ["out"]) =
      getBuildResult
        { buildResult := { builtOutputs := [("out", "h1"), ("lib", "secretB")] } }
        (.built "drv" ["out"]) :=
  ⟨by decide,
    (getBuildResult_noninterference
      { buildResult := { builtOutputs := [("out", "h1"), ("doc", "secretA")] } }
      { buildResult := { builtOutputs := [("out", "h1"), ("lib", "secretB")] } }
      (.built "drv" ["out"]) (by decide)).1⟩

/-- C5: the default `waiteeDone` removes the waitee from `waitees`, for a
non-success result increments exactly the matching failure counter, leaves the
goal runnable again when its last waitee is removed, and — inside `amDone` —
is delivered exactly once per distinct waiter, at a point where the waitee is
already terminal. -/
theorem waiteeDone_spec (gs : GoalState) (g : GoalId) (r : ExitCode)
    (hr : r ≠ .ecBusy) :
    (g ∉ (waiteeDoneF gs g r).waitees) ∧
    (∀ x, x ∈ (waiteeDoneF gs g r).waitees ↔ x ∈ gs.waitees ∧ x ≠ g) ∧
    ((waiteeDoneF gs g r).nrFailed =
      gs.nrFailed + (if r = .ecFailed then 1 else 0)) ∧
    ((waiteeDoneF gs g r).nrNoSubstituters =
      gs.nrNoSubstituters + (if r = .ecNoSubstituters then 1 else 0)) ∧
    ((waiteeDoneF gs g r).nrIncompleteClosure =
      gs.nrIncompleteClosure + (if r = .ecIncompleteClosure then 1 else 0)) ∧
    (r ≠ .ecSuccess → sumCounters (waiteeDoneF gs g r) = sumCounters gs + 1) ∧
    (r = .ecSuccess → sumCounters (waiteeDoneF gs g r) = sumCounters gs) ∧
    (gs.exitCode = .ecBusy → (waiteeDoneF gs g r).waitees = [] →
      runnable (waiteeDoneF gs g r)) ∧
    (∀ (s : WState) (e : Option Error) (w : GoalId), (s g).waiters.Nodup →
      w ∈ (s g).waiters → w ≠ g →
      amDoneF s g r e w = waiteeDoneF (s w) g r ∧
      (amDoneF s g r e g).exitCode = r) := by
  refine ⟨?_, ?_, ?_, ?_, ?_, ?_, ?_, ?_, ?_⟩
  · intro hmem
    exact (mem_waiteeDoneF_waitees.mp hmem).2 rfl
  · intro x
    exact mem_waiteeDoneF_waitees
  · unfold waiteeDoneF
    rw [bump_nrFailed]
  · unfold waiteeDoneF
    rw [bump_nrNoSubstituters]
  · unfold waiteeDoneF
    rw [bump_nrIncompleteClosure]
  · intro hsucc
    unfold waiteeDoneF
    rw [sumCounters_bump_failure _ _ hr hsucc]
    rfl
  · intro hsucc
    rw [hsucc]
    unfold waiteeDoneF
    rw [sumCounters_bump_success]
    rfl
  · intro hb hw
    exact ⟨by rw [waiteeDoneF_exitCode]; exact hb, hw⟩
  · intro s e w hnd hw hwg
    exact ⟨amDoneF_waiter_eq s g r e hnd hw hwg, amDoneF_exitCode_self s g r e⟩

/-- Witness for C5: removing waitee `0` with result `ecFailed` from a goal
waiting on `0` and `1` leaves `[1]` pending and bumps `nrFailed` alone. -/
theorem waiteeDone_spec_witness :
    (0 ∉ (waiteeDoneF { waitees := [0, 1] } 0 .ecFailed).waitees) ∧
    ((waiteeDoneF { waitees := [0, 1] } 0 .ecFailed).nrFailed =
      ({ waitees := [0, 1] } : GoalState).nrFailed +
        (if ExitCode.ecFailed = ExitCode.ecFailed then 1 else 0)) :=
  ⟨(waiteeDone_spec { waitees := [0, 1] } 0 .ecFailed (by decide)).1,
    (waiteeDone_spec { waitees := [0, 1] } 0 .ecFailed (by decide)).2.2.1⟩

/-- C4: `addWaitee(goal)` with `goal ≠ self` inserts `goal` into
`self.waitees` and `self` into `goal.waiters` when `goal` is still Busy; it is
a silent no-op when `goal` is already terminal-successful; and when `goal` is
already terminal-failed, `self` is notified synchronously through
`waiteeDone` (its failure-counter sum grows by one) while no waiting edge is
created and no other goal — in particular not `goal` and its `waiters` — is
touched. -/
theorem addWaitee_spec (s : WState) (self g : GoalId) (hne : self ≠ g) :
    ((s g).exitCode = .ecBusy →
      g ∈ (addWaiteeF s self g self).waitees ∧
      self ∈ (addWaiteeF s self g g).waiters) ∧
    ((s g).exitCode = .ecSuccess → addWaiteeF s self g = s) ∧
    (∀ r, (s g).exitCode = r → r ≠ .ecBusy → r ≠ .ecSuccess →
      (addWaiteeF s self g self =
        waiteeDoneF { s self with everWaitees := (s self).everWaitees.insert g } g r) ∧
      g ∉ (addWaiteeF s self g self).waitees ∧
      sumCounters (addWaiteeF s self g self) = sumCounters (s self) + 1 ∧
      (∀ x, x ≠ self → addWaiteeF s self g x = s x)) := by
  refine ⟨?_, addWaiteeF_success self, ?_⟩
  · intro hb
    rw [addWaiteeF_busy self hb]
    constructor
    · rw [upd_ne _ _ _ hne, upd_self]
      exact List.mem_insert_self g _
    · rw [upd_self]
      exact List.mem_insert_self self _
  · intro r hr h1 h2
    rw [addWaiteeF_failed self hr h1 h2]
    refine ⟨by rw [upd_self], ?_, ?_, fun x hx => by rw [upd_ne _ _ _ hx]⟩
    · rw [upd_self]
      intro hmem
      exact (mem_waiteeDoneF_waitees.mp hmem).2 rfl
    · rw [upd_self]
      unfold waiteeDoneF
      rw [sumCounters_bump_failure _ _ h1 h2]
      rfl

/-- Witness for C4: registering the Busy goal `0` as a waitee of goal `1` in
the initial state creates both directions of the edge; and registering the
terminal-`NoSubstituters` goal `0` (after its `amDone`) as a waitee of goal
`1` bumps `1`'s failure-counter sum instead of creating an edge. -/
theorem addWaitee_spec_witness :
    (0 ∈ (addWaiteeF initState 1 0 1).waitees ∧
      1 ∈ (addWaiteeF initState 1 0 0).waiters) ∧
    sumCounters (addWaiteeF (amDoneF initState 0 .ecNoSubstituters none) 1 0 1) =
      sumCounters (amDoneF initState 0 .ecNoSubstituters none 1) + 1 :=
  ⟨(addWaitee_spec initState 1 0 (by decide)).1 (by decide),
    ((addWaitee_spec (amDoneF initState 0 .ecNoSubstituters none) 1 0
        (by decide)).2.2 .ecNoSubstituters (by decide) (by decide) (by decide)).2.2.1⟩

/-- C1: `amDone(result, error?)` makes the goal terminal — it sets `exitCode`
to the result, stores the error when present, invokes `waiteeDone` exactly
once on every member of `waiters`, then clears `waiters`; afterwards the
`amDone` precondition is violated (a second call is detectable); and it is the
single path to a terminal state: any contract-respecting operation that
changes a goal's `exitCode` is an `amDoneF` on that goal. -/
theorem amDone_spec (s : WState) (g : GoalId) (r : ExitCode) (err : Option Error)
    (hbusy : (s g).exitCode = .ecBusy) (hr : r ≠ .ecBusy)
    (hnd : (s g).waiters.Nodup) :
    ((amDoneF s g r err g).exitCode = r) ∧
    (∀ e, err = some e → (amDoneF s g r err g).ex = some e) ∧
    (∀ w, w ∈ (s g).waiters → w ≠ g → amDoneF s g r err w = waiteeDoneF (s w) g r) ∧
    ((amDoneF s g r err g).waiters = []) ∧
    (¬ amDoneOk (amDoneF s g r err) g) ∧
    (∀ t u : WState, Step t u → (u g).exitCode ≠ (t g).exitCode →
      ∃ t0 r2 e2, u = amDoneF t0 g r2 e2) := by
  refine ⟨amDoneF_exitCode_self s g r err, ?_, ?_, amDoneF_waiters_self s g r err,
    ?_, ?_⟩
  · intro e he
    rw [he]
    exact amDoneF_ex_self_some s g r e
  · intro w hw hwg
    exact amDoneF_waiter_eq s g r err hnd hw hwg
  · intro hok
    unfold amDoneOk at hok
    rw [amDoneF_exitCode_self] at hok
    exact hr hok
  · intro t u hstep hch
    cases hstep with
    | addWaitee self2 g2 hne2 hb2 he2 =>
        exact absurd (addWaiteeF_exitCode t self2 g2 g) hch
    | amDone g2 r2 e2 hb2 hr2 =>
        by_cases hgg : g2 = g
        · rw [hgg]
          exact ⟨t, r2, e2, rfl⟩
        · have hne3 : g ≠ g2 := fun hh => hgg hh.symm
          exact absurd (amDoneF_exitCode_ne t g2 r2 e2 hne3) hch
    | setBuildResult g2 br hb2 =>
        refine absurd ?_ hch
        exact upd_preserve GoalState.exitCode t g2 _ (fun gs => by rfl) g
    | registerChild g2 pid hb2 =>
        refine absurd ?_ hch
        exact upd_preserve GoalState.exitCode t g2 _ (fun gs => by rfl) g
    | timedOut g2 e2 hb2 =>
        by_cases hgg : g2 = g
        · rw [hgg]
          exact ⟨upd t g (fun gs => { gs with childProcs := [] }), .ecFailed,
            some e2, rfl⟩
        · refine absurd ?_ hch
          have hne3 : g ≠ g2 := fun hh => hgg hh.symm
          unfold timedOutF
          rw [amDoneF_exitCode_ne _ _ _ _ hne3, upd_ne _ _ _ hne3]

/-- Witness for C1: completing goal `0` (which goal `1` waits on) with
`ecSuccess` sets its exit code, clears its waiters, and leaves the `amDone`
precondition violated for a second call. -/
theorem amDone_spec_witness :
    ((amDoneF (addWaiteeF initState 1 0) 0 .ecSuccess none 0).exitCode =
      .ecSuccess) ∧
    ((amDoneF (addWaiteeF initState 1 0) 0 .ecSuccess none 0).waiters = []) ∧
    ¬ amDoneOk (amDoneF (addWaiteeF initState 1 0) 0 .ecSuccess none) 0 := by
  have h := amDone_spec (addWaiteeF initState 1 0) 0 .ecSuccess none
    (by decide) (by decide) (by decide)
  exact ⟨h.1, h.2.2.2.1, h.2.2.2.2.1⟩

/-- C8: when the worker invokes `timedOut` on a Busy goal, the goal ends in
the terminal `ecFailed` state carrying the timeout error — never left Busy —
with its owned child processes terminated, its waiters notified via
`waiteeDone` and then released. -/
theorem timedOut_spec (s : WState) (g : GoalId) (err : Error)
    (hbusy : (s g).exitCode = .ecBusy) :
    ((timedOutF s g err g).exitCode = .ecFailed) ∧
    ((timedOutF s g err g).exitCode ≠ .ecBusy) ∧
    ((timedOutF s g err g).ex = some err) ∧
    ((timedOutF s g err g).childProcs = []) ∧
    ((timedOutF s g err g).waiters = []) ∧
    (∀ w, (s g).waiters.Nodup → w ∈ (s g).waiters → w ≠ g →
      timedOutF s g err w = waiteeDoneF (s w) g .ecFailed) := by
  unfold timedOutF
  refine ⟨amDoneF_exitCode_self _ g .ecFailed (some err), ?_,
    amDoneF_ex_self_some _ g .ecFailed err, ?_,
    amDoneF_waiters_self _ g .ecFailed (some err), ?_⟩
  · rw [amDoneF_exitCode_self]
    decide
  · rw [amDoneF_childProcs, upd_self]
  · intro w hnd hw hwg
    have hwEq : (upd s g (fun gs => { gs with childProcs := [] }) g).waiters =
        (s g).waiters := by
      rw [upd_self]
    rw [amDoneF_waiter_eq _ g .ecFailed (some err) (by rw [hwEq]; exact hnd)
      (by rw [hwEq]; exact hw) hwg]
    rw [upd_ne _ _ _ hwg]

/-- Witness for C8: timing out goal `0` (waited on by goal `1`) leaves it
terminal-Failed with the timeout error recorded and its waiters gone, and
delivers the failure to waiter `1`. -/
theorem timedOut_spec_witness :
    ((timedOutF (addWaiteeF initState 1 0) 0 "timed out" 0).exitCode =
      .ecFailed) ∧
    ((timedOutF (addWaiteeF initState 1 0) 0 "timed out" 0).ex =
      some "timed out") ∧
    ((timedOutF (addWaiteeF initState 1 0) 0 "timed out" 0).waiters = []) ∧
    (timedOutF (addWaiteeF initState 1 0) 0 "timed out" 1 =
      waiteeDoneF (addWaiteeF initState 1 0 1) 0 .ecFailed) := by
  have h := timedOut_spec (addWaiteeF initState 1 0) 0 "timed out" (by decide)
  exact ⟨h.1, h.2.2.1, h.2.2.2.2.1, h.2.2.2.2.2 1 (by decide) (by decide) (by decide)⟩

/-- One contract-respecting operation leaves a terminal goal's `exitCode` and
`buildResult` unchanged and adds no new waitee to it. -/
theorem terminal_frozen_step {s s' : WState} {g : GoalId} (hs : Step s s')
    (hterm : (s g).exitCode ≠ .ecBusy) :
    (s' g).exitCode = (s g).exitCode ∧
    (s' g).buildResult = (s g).buildResult ∧
    (∀ x, x ∈ (s' g).waitees → x ∈ (s g).waitees) := by
  cases hs with
  | addWaitee self2 g2 hne2 hb2 he2 =>
      have hgs : g ≠ self2 := fun hh => hterm (hh ▸ hb2)
      refine ⟨addWaiteeF_exitCode s self2 g2 g, addWaiteeF_buildResult s self2 g2 g,
        ?_⟩
      intro x hx
      rwa [addWaiteeF_waitees_other s self2 g2 g hgs] at hx
  | amDone g2 r2 e2 hb2 hr2 =>
      have hgg : g ≠ g2 := fun hh => hterm (hh ▸ hb2)
      exact ⟨amDoneF_exitCode_ne s g2 r2 e2 hgg, amDoneF_buildResult s g2 r2 e2 g,
        fun x hx => amDoneF_waitees_subset s g2 r2 e2 g x hx⟩
  | setBuildResult g2 br hb2 =>
      have hgg : g ≠ g2 := fun hh => hterm (hh ▸ hb2)
      rw [upd_ne _ _ _ hgg]
      exact ⟨rfl, rfl, fun x hx => hx⟩
  | registerChild g2 pid hb2 =>
      have hgg : g ≠ g2 := fun hh => hterm (hh ▸ hb2)
      rw [upd_ne _ _ _ hgg]
      exact ⟨rfl, rfl, fun x hx => hx⟩
  | timedOut g2 e2 hb2 =>
      have hgg : g ≠ g2 := fun hh => hterm (hh ▸ hb2)
      unfold timedOutF
      refine ⟨?_, ?_, ?_⟩
      · rw [amDoneF_exitCode_ne _ _ _ _ hgg, upd_ne _ _ _ hgg]
      · rw [amDoneF_buildResult, upd_ne _ _ _ hgg]
      · intro x hx
        have h2 := amDoneF_waitees_subset _ g2 .ecFailed (some e2) g x hx
        rwa [upd_ne _ _ _ hgg] at h2

/-- C6: once a goal's `exitCode` is any value other than `ecBusy`, no sequence
of contract-respecting operations changes its `exitCode` (back to Busy or to
anything else), adds a new waitee to it, or mutates its `buildResult`. -/
theorem terminal_immutable (s s' : WState) (g : GoalId)
    (hsteps : Relation.ReflTransGen Step s s')
    (hterm : (s g).exitCode ≠ .ecBusy) :
    (s' g).exitCode = (s g).exitCode ∧
    (s' g).buildResult = (s g).buildResult ∧
    (∀ x, x ∈ (s' g).waitees → x ∈ (s g).waitees) := by
  induction hsteps with
  | refl => exact ⟨rfl, rfl, fun x hx => hx⟩
  | tail hab hbc ih =>
      obtain ⟨h1, h2, h3⟩ := ih
      obtain ⟨k1, k2, k3⟩ := terminal_frozen_step hbc (by rw [h1]; exact hterm)
      exact ⟨k1.trans h1, k2.trans h2, fun x hx => h3 x (k3 x hx)⟩

/-- Witness for C6: after goal `0` completes successfully, a subsequent
`setBuildResult` operation on the still-Busy goal `1` leaves goal `0`'s exit
code, build result and waitees untouched. -/
theorem terminal_immutable_witness :
    ((amDoneF initState 0 .ecSuccess none 0).exitCode ≠ .ecBusy) ∧
    ((upd (amDoneF initState 0 .ecSuccess none) 1
        (fun gs => { gs with buildResult := { status := .ecSuccess } }) 0).exitCode =
      (amDoneF initState 0 .ecSuccess none 0).exitCode) ∧
    ((upd (amDoneF initState 0 .ecSuccess none) 1
        (fun gs => { gs with buildResult := { status := .ecSuccess } }) 0).buildResult =
      (amDoneF initState 0 .ecSuccess none 0).buildResult) := by
  have h := terminal_immutable (amDoneF initState 0 .ecSuccess none)
    (upd (amDoneF initState 0 .ecSuccess none) 1
      (fun gs => { gs with buildResult := { status := .ecSuccess } }))
    0
    (Relation.ReflTransGen.single
      (Step.setBuildResult (amDoneF initState 0 .ecSuccess none) 1
        { status := .ecSuccess } (by decide)))
    (by decide)
  exact ⟨by decide, h.1, h.2.1⟩

/-- C2: in every reachable state the waiter/waitee relation is symmetric —
if `a` is in `b`'s waitees then `b` is in `a`'s waiters — and when a goal `a`
reaches its terminal state via `amDone`, `a` is removed from the waitees of
every partner and `a`'s own waiters are cleared, in that same operation. -/
theorem waitee_waiter_symmetry (s : WState) (hreach : Reach s) (a b : GoalId) :
    (a ∈ (s b).waitees → b ∈ (s a).waiters) ∧
    ((s a).exitCode = .ecBusy → ∀ r e, r ≠ .ecBusy →
      a ∉ (amDoneF s a r e b).waitees ∧ (amDoneF s a r e a).waiters = []) := by
  have hinv := inv_reach hreach
  refine ⟨hinv.sym a b, ?_⟩
  intro hb r e hr
  refine ⟨?_, amDoneF_waiters_self s a r e⟩
  by_cases hbw : b ∈ (s a).waiters
  · have hba : b ≠ a := fun hh => hinv.noSelfWaiters a (hh ▸ hbw)
    rw [amDoneF_waiter_eq s a r e (hinv.waitersNodup a) hbw hba]
    intro hmem
    exact (mem_waiteeDoneF_waitees.mp hmem).2 rfl
  · rw [amDoneF_not_waiter_waitees s a r e hbw]
    intro hmem
    exact hbw (hinv.sym a b hmem)

/-- Witness for C2: in the reachable state where goal `1` waits on goal `0`,
the edge is symmetric, and completing goal `0` removes it from goal `1`'s
waitees. -/
theorem waitee_waiter_symmetry_witness :
    (1 ∈ (addWaiteeF initState 1 0 0).waiters) ∧
    (0 ∉ (amDoneF (addWaiteeF initState 1 0) 0 .ecSuccess none 1).waitees) := by
  have h := waitee_waiter_symmetry (addWaiteeF initState 1 0)
    (Reach.step Reach.init
      (Step.addWaitee initState 1 0 (by decide) (by decide) (by decide)))
    0 1
  exact ⟨h.1 (by decide), (h.2 (by decide) .ecSuccess none (by decide)).1⟩

/-- C7: in every reachable state, the sum of the three failure counters of a
goal never exceeds the number of distinct waitees the goal has ever
registered through `addWaitee` (recorded by the duplicate-free ghost history
`everWaitees`). -/
theorem failure_counters_bounded (s : WState) (hreach : Reach s) (g : GoalId) :
    (s g).everWaitees.Nodup ∧
    (s g).nrFailed + (s g).nrNoSubstituters + (s g).nrIncompleteClosure ≤
      (s g).everWaitees.length := by
  have hinv := inv_reach hreach
  refine ⟨hinv.everNodup g, ?_⟩
  have h1 := hinv.cnt g
  have h2 : sumCounters (s g) =
      (s g).nrFailed + (s g).nrNoSubstituters + (s g).nrIncompleteClosure := rfl
  omega

/-- Witness for C7: after goal `1` registers the failed waitee `0`, its
counter sum `1` is bounded by its single registered waitee. -/
theorem failure_counters_bounded_witness :
    (addWaiteeF (amDoneF initState 0 .ecFailed none) 1 0 1).nrFailed +
        (addWaiteeF (amDoneF initState 0 .ecFailed none) 1 0 1).nrNoSubstituters +
        (addWaiteeF (amDoneF initState 0 .ecFailed none) 1 0 1).nrIncompleteClosure ≤
      (addWaiteeF (amDoneF initState 0 .ecFailed none) 1 0 1).everWaitees.length := by
  have h := failure_counters_bounded
    (addWaiteeF (amDoneF initState 0 .ecFailed none) 1 0)
    (Reach.step
      (Reach.step Reach.init
        (Step.amDone initState 0 .ecFailed none (by decide) (by decide)))
      (Step.addWaitee (amDoneF initState 0 .ecFailed none) 1 0
        (by decide) (by decide) (by decide)))
    1
  exact h.2

end NixGoal
